import Mathlib

/-!
# Verification of the Cosmos conversation-persistence service

Shallow embedding of `src/services/cosmosService.js` (class `CosmosService`).

Modelling conventions:

* A stored document is a `Doc`.  JSON fields that some writers omit are
  `Option`-typed; `none` stands for a field that is absent (JS `undefined`;
  a JS `null` value is collapsed to absence, as no operation of the service
  distinguishes the two on these fields).
* Timestamps are `Nat` instants.  The service writes ISO-8601 strings in a
  fixed named time zone (`America/Mexico_City`), whose lexicographic order
  coincides with chronological order, so both the store-side `ORDER BY` and
  the client-side `new Date(...)` comparison are modelled by `Nat` order.
* The container is a `Store` (a list of documents).  The container's
  partition key path is `/userId`, so the partition key value of a document
  is its `userId` field.  Point reads, upserts, creates and deletes are
  keyed by `(id, partition key)` exactly as in the Cosmos client.
* The availability gate (`this.cosmosAvailable`) is passed to every
  operation as an explicit `avail : Bool` argument; the generated message
  id and the current instant are likewise explicit arguments (`msgId`,
  `now`), since they come from the environment (`generateMessageId()`,
  `DateTime.now()`).
* SQL query semantics follow the Cosmos DB query language: a comparison
  whose operand is an undefined property evaluates to undefined and the
  `WHERE` clause rejects the document, and `ORDER BY c.timestamp` drops
  documents that do not carry the ordered property.
* The stable JS `Array.prototype.sort` and the store-side `ORDER BY` are
  both modelled with `List.insertionSort` (a stable sort) on the timestamp.
-/

namespace CosmosService

/-- A document of the single multiplexed container.  Message documents are
written by `saveMessage`; conversation-metadata documents (with
`documentType = "conversation_info"`) by `saveConversationInfo` and
`updateConversationActivity`. -/
structure Doc where
  id : String
  conversationId : String
  userId : String
  userName : Option String := none
  message : Option String := none
  messageId : Option String := none
  messageType : Option String := none
  documentType : Option String := none
  createdAt : Option Nat := none
  lastActivity : Option Nat := none
  messageCount : Option Nat := none
  isActive : Option Bool := none
  timestamp : Option Nat := none
  dateCreated : Option Nat := none
  partitionKey : String := ""
  ttl : Nat := 0
deriving Repr, DecidableEq

/-- The document container. -/
abbrev Store := List Doc

/-- `ttl: 60 * 60 * 24 * 90` — the fixed 90-day expiry horizon. -/
def ttlSeconds : Nat := 60 * 60 * 24 * 90

/-- `` const conversationDocId = `conversation_${conversationId}` `` -/
def conversationDocId (conversationId : String) : String :=
  "conversation_" ++ conversationId

/-- Does document `d` sit at `(docId, pk)`?  (Cosmos point operations are
keyed by id and partition-key value; the partition key path is `/userId`.) -/
def keyMatch (docId pk : String) (d : Doc) : Bool :=
  decide (d.id = docId ∧ d.userId = pk)

/-- `container.item(docId, pk).read()`: `some` on success, `none` for the
404 "not found" outcome. -/
def pointRead (s : Store) (docId pk : String) : Option Doc :=
  s.find? (keyMatch docId pk)

/-- `container.items.upsert(doc)`: replace the document at the same
`(id, partition key)` if present, insert otherwise.  Never conflicts. -/
def upsertItem (s : Store) (doc : Doc) : Store :=
  if s.any (keyMatch doc.id doc.userId) then
    s.map (fun d => if keyMatch doc.id doc.userId d then doc else d)
  else s ++ [doc]

/-- `container.items.create(doc)`: create-only write.  Fails (`none`, the
"Entity with the specified id already exists" conflict) when a document
with the same `(id, partition key)` is already stored. -/
def createItem (s : Store) (doc : Doc) : Option Store :=
  if s.any (keyMatch doc.id doc.userId) then none
  else some (s ++ [doc])

/-- `container.item(docId, pk).delete()`: `none` is the 404 outcome. -/
def deleteItem (s : Store) (docId pk : String) : Option Store :=
  if s.any (keyMatch docId pk) then
    some (s.filter (fun d => !keyMatch docId pk d))
  else none

/-- JS `x || fallback` on a string-valued field: both absence and the empty
string are falsy. -/
def jsOrStr (x : Option String) (fallback : String) : String :=
  match x with
  | some s => if s = "" then fallback else s
  | none => fallback

/-- JS `text.substring(0, n)`: the first `n` units of the text (a Lean
`Char` models a JS string unit). -/
def substringTo (text : String) (n : Nat) : String := ⟨text.data.take n⟩

/-- The message document built by `saveMessage` (lines 113–125):
`message` is truncated with `message.substring(0, 4000)`, `timestamp` and
`dateCreated` are the write instant, `ttl` is the 90-day horizon. -/
def messageDocOf (message conversationId userId : String) (userName : Option String)
    (messageType : String) (msgId : String) (now : Nat) : Doc :=
  { id := msgId
    messageId := some msgId
    conversationId := conversationId
    userId := userId
    userName := userName
    message := some (substringTo message 4000)
    messageType := some messageType
    timestamp := some now
    dateCreated := some now
    partitionKey := userId
    ttl := ttlSeconds }

/-- `saveMessage(message, conversationId, userId, userName, messageType)`.
Returns the created document (`null` → `none` when the gate is closed, a
required argument is empty, or the create-only write conflicts) together
with the resulting store.  The post-write metadata refresh is dispatched
with `setImmediate` (fire-and-forget), decoupled from this call, and is
therefore modelled as the separate operation `updateConversationActivity`. -/
def saveMessage (avail : Bool) (s : Store) (message conversationId userId : String)
    (userName : Option String) (messageType : String) (msgId : String) (now : Nat) :
    Option Doc × Store :=
  if !avail then (none, s)
  else if message = "" ∨ conversationId = "" ∨ userId = "" then (none, s)
  else
    let doc := messageDocOf message conversationId userId userName messageType msgId now
    match createItem s doc with
    | none => (none, s)
    | some s' => (some doc, s')

/-- Timestamp of a document, for ordering (documents reaching a sort always
carry one; see the query filters below). -/
def tsVal (d : Doc) : Nat := d.timestamp.getD 0

/-- Ascending timestamp order (the client-side re-sort). -/
def tsLe (a b : Doc) : Prop := tsVal a ≤ tsVal b

/-- Descending timestamp order (the store-side `ORDER BY c.timestamp DESC`). -/
def tsGe (a b : Doc) : Prop := tsVal b ≤ tsVal a

instance : DecidableRel tsLe := fun a b => inferInstanceAs (Decidable (tsVal a ≤ tsVal b))

instance : DecidableRel tsGe := fun a b => inferInstanceAs (Decidable (tsVal b ≤ tsVal a))

instance : IsTotal Doc tsLe := ⟨fun a b => Nat.le_total (tsVal a) (tsVal b)⟩

instance : IsTrans Doc tsLe := ⟨fun _ _ _ h h' => Nat.le_trans h h'⟩

instance : IsTotal Doc tsGe := ⟨fun a b => Nat.le_total (tsVal b) (tsVal a)⟩

instance : IsTrans Doc tsGe := ⟨fun _ _ _ h h' => Nat.le_trans h' h⟩

/-- Sort ascending by timestamp (stable, like `Array.prototype.sort`). -/
def sortAscByTimestamp (l : List Doc) : List Doc := List.insertionSort tsLe l

/-- Sort descending by timestamp (the store's `ORDER BY c.timestamp DESC`). -/
def sortDescByTimestamp (l : List Doc) : List Doc := List.insertionSort tsGe l

/-- Filter of the history query (lines 166–180):
`WHERE c.conversationId = @conversationId AND c.userId = @userId AND
c.messageType IS DEFINED ORDER BY c.timestamp DESC`; the `ORDER BY`
additionally drops documents without a `timestamp`. -/
def historyMatch (conversationId userId : String) (d : Doc) : Bool :=
  decide (d.conversationId = conversationId ∧ d.userId = userId) &&
    d.messageType.isSome && d.timestamp.isSome

/-- The projection returned to callers by `getConversationHistory`
(lines 189–197): exactly the seven fields below, with `id` taken from the
stored `messageId` and `type` from the stored `messageType`. -/
structure HistoryEntry where
  id : Option String
  message : Option String
  conversationId : String
  userId : String
  userName : Option String
  timestamp : Option Nat
  type : Option String
deriving Repr, DecidableEq

/-- `msg => ({ id: msg.messageId, ..., type: msg.messageType })` -/
def toHistoryEntry (d : Doc) : HistoryEntry :=
  { id := d.messageId
    message := d.message
    conversationId := d.conversationId
    userId := d.userId
    userName := d.userName
    timestamp := d.timestamp
    type := d.messageType }

/-- `getConversationHistory(conversationId, userId, limit)`: store query
`SELECT TOP @limit * ... ORDER BY c.timestamp DESC`, then the client
re-sorts ascending by timestamp and projects each document. -/
def getConversationHistory (avail : Bool) (s : Store)
    (conversationId userId : String) (limit : Nat) : List HistoryEntry :=
  if !avail then []
  else
    let matched := s.filter (historyMatch conversationId userId)
    let topDesc := (sortDescByTimestamp matched).take limit
    (sortAscByTimestamp topDesc).map toHistoryEntry

/-- The caller-supplied `additionalData` object spread into the metadata
document by `saveConversationInfo` (`...additionalData`): each `some`
field overrides the base document's field.  (Overriding a field *to null*
is collapsed to "no override", per the absence convention.) -/
structure ExtraData where
  id : Option String := none
  conversationId : Option String := none
  userId : Option String := none
  userName : Option String := none
  message : Option String := none
  messageId : Option String := none
  messageType : Option String := none
  documentType : Option String := none
  createdAt : Option Nat := none
  lastActivity : Option Nat := none
  messageCount : Option Nat := none
  isActive : Option Bool := none
  timestamp : Option Nat := none
  dateCreated : Option Nat := none
  partitionKey : Option String := none
  ttl : Option Nat := none
deriving Repr, DecidableEq

/-- Override an optional field: the spread keeps the base value only when
the extra object does not carry the property. -/
def ov {α : Type} (x : Option α) (y : Option α) : Option α :=
  match x with
  | some v => some v
  | none => y

/-- `{ ...base, ...extra }` -/
def applyExtra (base : Doc) (e : ExtraData) : Doc :=
  { id := e.id.getD base.id
    conversationId := e.conversationId.getD base.conversationId
    userId := e.userId.getD base.userId
    userName := ov e.userName base.userName
    message := ov e.message base.message
    messageId := ov e.messageId base.messageId
    messageType := ov e.messageType base.messageType
    documentType := ov e.documentType base.documentType
    createdAt := ov e.createdAt base.createdAt
    lastActivity := ov e.lastActivity base.lastActivity
    messageCount := ov e.messageCount base.messageCount
    isActive := ov e.isActive base.isActive
    timestamp := ov e.timestamp base.timestamp
    dateCreated := ov e.dateCreated base.dateCreated
    partitionKey := e.partitionKey.getD base.partitionKey
    ttl := e.ttl.getD base.ttl }

/-- The default `additionalData = {}`. -/
def noExtra : ExtraData := {}

/-- The base metadata document built by `saveConversationInfo`
(lines 227–240): note `createdAt: timestamp` (the *current* instant) and
`messageCount: 0`, with no read of any previously stored document. -/
def conversationInfoDoc (conversationId userId : String) (userName : Option String)
    (now : Nat) : Doc :=
  { id := conversationDocId conversationId
    conversationId := conversationId
    userId := userId
    userName := some (jsOrStr userName "Usuario")
    documentType := some "conversation_info"
    createdAt := some now
    lastActivity := some now
    messageCount := some 0
    isActive := some true
    partitionKey := userId
    ttl := ttlSeconds }

/-- `saveConversationInfo(conversationId, userId, userName, additionalData)`:
validation, then a single `upsert` of the freshly built document. -/
def saveConversationInfo (avail : Bool) (s : Store) (conversationId userId : String)
    (userName : Option String) (extra : ExtraData) (now : Nat) :
    Option Doc × Store :=
  if !avail then (none, s)
  else if conversationId = "" ∨ userId = "" then (none, s)
  else
    let doc := applyExtra (conversationInfoDoc conversationId userId userName now) extra
    (some doc, upsertItem s doc)

/-- `getConversationInfo(conversationId, userId)`: point read; both the 404
outcome and any other read failure surface as `null`. -/
def getConversationInfo (avail : Bool) (s : Store) (conversationId userId : String) :
    Option Doc :=
  if !avail then none
  else pointRead s (conversationDocId conversationId) userId

/-- The merged document built by `updateConversationActivity`
(lines 331–349).  The JS object literal lists the computed fields, then
spreads `...(existingDoc || {})` over them, then re-overrides
`lastActivity`, `messageCount` and `isActive`; later keys win, so:

* with no existing document, the freshly seeded base is used
  (`createdAt = now`, `messageCount = 0 + 1`);
* with an existing document `e`, every field present on `e` survives the
  spread (`id`, `createdAt`, `ttl`, ... — even an empty `userName`), the
  computed fallback fills absent fields, and the three re-overridden keys
  take `lastActivity = now`, `messageCount = (e.messageCount || 0) + 1`,
  `isActive = true`. -/
def activityDoc (conversationId userId : String) (now : Nat) : Option Doc → Doc
  | none =>
    { id := conversationDocId conversationId
      conversationId := conversationId
      userId := userId
      userName := some "Usuario"
      documentType := some "conversation_info"
      createdAt := some now
      lastActivity := some now
      messageCount := some 1
      isActive := some true
      partitionKey := userId
      ttl := ttlSeconds }
  | some e =>
    { id := e.id
      conversationId := e.conversationId
      userId := e.userId
      userName := some (e.userName.getD "Usuario")
      documentType := some (e.documentType.getD "conversation_info")
      createdAt := some (e.createdAt.getD now)
      lastActivity := some now
      messageCount := some (e.messageCount.getD 0 + 1)
      isActive := some true
      partitionKey := e.partitionKey
      ttl := e.ttl
      message := e.message
      messageId := e.messageId
      messageType := e.messageType
      timestamp := e.timestamp
      dateCreated := e.dateCreated }

/-- `updateConversationActivity(conversationId, userId)` (lines 295–377):
validation, best-effort point read of the existing metadata document (404
and any other read failure both degrade to "no prior state"), then an
unconditional `upsert` of the merged document.  Returns `true` iff the
upsert confirms a document, which the upsert always does. -/
def updateConversationActivity (avail : Bool) (s : Store)
    (conversationId userId : String) (now : Nat) : Bool × Store :=
  if !avail then (false, s)
  else if conversationId = "" ∨ userId = "" then (false, s)
  else
    let doc := activityDoc conversationId userId now
      (pointRead s (conversationDocId conversationId) userId)
    (true, upsertItem s doc)

/-- Filter of the retention query (lines 429–442):
`WHERE c.conversationId = @conversationId AND c.userId = @userId AND
c.documentType != 'conversation_info' ORDER BY c.timestamp DESC`.
Cosmos DB SQL comparison is three-valued: when `c.documentType` is an
undefined property the `!=` comparison evaluates to undefined and the
`WHERE` clause rejects the document — hence `none => false`; the
`ORDER BY` likewise drops documents without a `timestamp`. -/
def cleanMatch (conversationId userId : String) (d : Doc) : Bool :=
  decide (d.conversationId = conversationId ∧ d.userId = userId) &&
    (match d.documentType with
     | some t => decide (t ≠ "conversation_info")
     | none => false) &&
    d.timestamp.isSome

/-- `cleanOldMessages(conversationId, userId, keepLast)`: fetch the
matching documents ordered by timestamp descending; if at most `keepLast`
remain, return 0; otherwise delete every document past the first
`keepLast`, best-effort, returning the number actually deleted. -/
def cleanOldMessages (avail : Bool) (s : Store) (conversationId userId : String)
    (keepLast : Nat) : Nat × Store :=
  if !avail then (0, s)
  else
    let messages := sortDescByTimestamp (s.filter (cleanMatch conversationId userId))
    if messages.length ≤ keepLast then (0, s)
    else
      (messages.drop keepLast).foldl
        (fun acc m =>
          match deleteItem acc.2 m.id userId with
          | some s' => (acc.1 + 1, s')
          | none => acc)
        (0, s)

/-- `deleteConversation(conversationId, userId)`: fetch every document of
the pair, delete each best-effort, return `true` iff at least one deletion
succeeded. -/
def deleteConversation (avail : Bool) (s : Store) (conversationId userId : String) :
    Bool × Store :=
  if !avail then (false, s)
  else
    let docs := s.filter
      (fun d => decide (d.conversationId = conversationId ∧ d.userId = userId))
    let res := docs.foldl
      (fun acc d =>
        match deleteItem acc.2 d.id userId with
        | some s' => (acc.1 + 1, s')
        | none => acc)
      ((0 : Nat), s)
    (decide (0 < res.1), res.2)

/-- A per-field aggregate result in `getStats`: the count, or the
`'ERROR'` marker written when that count query threw. -/
inductive StatVal where
  | num : Nat → StatVal
  | err : StatVal
deriving Repr, DecidableEq

/-- `typeof x === 'number' ? x : 0` — the defensive coercion used when
summing the three message-type counts. -/
def StatVal.toNum : StatVal → Nat
  | StatVal.num n => n
  | StatVal.err => 0

/-- Which of the independent aggregate queries fail (environment input:
each query is wrapped in its own `try`/`catch`). -/
structure StatFailures where
  totalDocuments : Bool := false
  conversations : Bool := false
  userMessages : Bool := false
  botMessages : Bool := false
  systemMessages : Bool := false
  recentActivity : Bool := false
deriving Repr, DecidableEq

def countWhere (s : Store) (p : Doc → Bool) : Nat := (s.filter p).length

/-- `SELECT VALUE COUNT(1) FROM c WHERE c.messageType = '<t>'` -/
def countByType (s : Store) (t : String) : Nat :=
  countWhere s (fun d => decide (d.messageType = some t))

/-- `SELECT VALUE COUNT(1) FROM c WHERE c.documentType = 'conversation_info'` -/
def countConversations (s : Store) : Nat :=
  countWhere s (fun d => decide (d.documentType = some "conversation_info"))

/-- `SELECT TOP 1 c.timestamp FROM c WHERE IS_DEFINED(c.messageType)
ORDER BY c.timestamp DESC` -/
def recentActivityOf (s : Store) : Option Nat :=
  ((sortDescByTimestamp
      (s.filter (fun d => d.messageType.isSome && d.timestamp.isSome))).head?).map tsVal

/-- The statistics object assembled by `getStats` when the gate is open. -/
structure Stats where
  totalDocuments : StatVal
  conversations : StatVal
  userMessages : StatVal
  botMessages : StatVal
  systemMessages : StatVal
  totalMessages : Nat
  recentActivity : Option Nat
deriving Repr, DecidableEq

/-- Result of `getStats`: the degraded `{available: false, error}` object,
or `{available: true, ..., stats}`. -/
inductive StatsResult where
  | unavailable : StatsResult
  | ok : Stats → StatsResult
deriving Repr, DecidableEq

/-- `getStats()` (lines 527–627): one independent count query per field
(its failure marks only that field with `'ERROR'`), `totalMessages`
computed client-side as the defensive sum of the three message-type
counts, and the most recent message timestamp. -/
def getStats (avail : Bool) (s : Store) (f : StatFailures) : StatsResult :=
  if !avail then StatsResult.unavailable
  else
    let td := if f.totalDocuments then StatVal.err else StatVal.num s.length
    let cv := if f.conversations then StatVal.err else StatVal.num (countConversations s)
    let um := if f.userMessages then StatVal.err else StatVal.num (countByType s "user")
    let bm := if f.botMessages then StatVal.err else StatVal.num (countByType s "bot")
    let sm := if f.systemMessages then StatVal.err else StatVal.num (countByType s "system")
    StatsResult.ok
      { totalDocuments := td
        conversations := cv
        userMessages := um
        botMessages := bm
        systemMessages := sm
        totalMessages := um.toNum + bm.toNum + sm.toNum
        recentActivity := if f.recentActivity then none else recentActivityOf s }

/-- Sequential calls of `updateConversationActivity` (gate open), one call
per listed instant. -/
def runActivitySeq (s : Store) (conversationId userId : String) : List Nat → Store
  | [] => s
  | t :: ts =>
    runActivitySeq (updateConversationActivity true s conversationId userId t).2
      conversationId userId ts

/-! ## Store lemmas -/

theorem pointRead_some {s : Store} {docId pk : String} {d : Doc}
    (h : pointRead s docId pk = some d) :
    d ∈ s ∧ d.id = docId ∧ d.userId = pk := by
  have hp := List.find?_some h
  simp only [keyMatch, decide_eq_true_eq] at hp
  exact ⟨List.mem_of_find?_eq_some h, hp.1, hp.2⟩

theorem find?_keyMatch_replace (s : Store) (doc : Doc)
    (h : s.any (keyMatch doc.id doc.userId) = true) :
    (s.map (fun d => if keyMatch doc.id doc.userId d then doc else d)).find?
      (keyMatch doc.id doc.userId) = some doc := by
  induction s with
  | nil => simp at h
  | cons a t ih =>
    simp only [List.any_cons, Bool.or_eq_true] at h
    by_cases ha : keyMatch doc.id doc.userId a = true
    · have hdoc : keyMatch doc.id doc.userId doc = true := by simp [keyMatch]
      rw [List.map_cons, if_pos ha]
      exact List.find?_cons_of_pos _ hdoc
    · have ht : t.any (keyMatch doc.id doc.userId) = true := by
        rcases h with h | h
        · exact absurd h ha
        · exact h
      rw [List.map_cons, if_neg ha, List.find?_cons_of_neg _ ha]
      exact ih ht

theorem pointRead_upsertItem (s : Store) (doc : Doc) :
    pointRead (upsertItem s doc) doc.id doc.userId = some doc := by
  unfold pointRead upsertItem
  by_cases h : s.any (keyMatch doc.id doc.userId) = true
  · simpa [h] using find?_keyMatch_replace s doc h
  · have h' : s.find? (keyMatch doc.id doc.userId) = none := by
      rw [List.find?_eq_none]
      intro x hx hk
      exact h (List.any_eq_true.mpr ⟨x, hx, hk⟩)
    have hd : keyMatch doc.id doc.userId doc = true := by
      simp [keyMatch]
    simp [h, List.find?_append, h', hd]

/-! ## Metadata-update lemmas -/

theorem updateConversationActivity_eq (s : Store) (cid uid : String) (now : Nat)
    (hc : cid ≠ "") (hu : uid ≠ "") :
    updateConversationActivity true s cid uid now =
      (true,
        upsertItem s
          (activityDoc cid uid now (pointRead s (conversationDocId cid) uid))) := by
  simp [updateConversationActivity, hc, hu]

theorem pointRead_after_update (s : Store) (cid uid : String) (now : Nat)
    (hc : cid ≠ "") (hu : uid ≠ "") :
    pointRead (updateConversationActivity true s cid uid now).2
        (conversationDocId cid) uid =
      some (activityDoc cid uid now (pointRead s (conversationDocId cid) uid)) := by
  rw [updateConversationActivity_eq s cid uid now hc hu]
  have key : (activityDoc cid uid now (pointRead s (conversationDocId cid) uid)).id =
        conversationDocId cid ∧
      (activityDoc cid uid now (pointRead s (conversationDocId cid) uid)).userId = uid := by
    cases h : pointRead s (conversationDocId cid) uid with
    | none => exact ⟨rfl, rfl⟩
    | some e =>
      have he := pointRead_some h
      exact ⟨by simp [activityDoc, he.2.1], by simp [activityDoc, he.2.2]⟩
  have hread := pointRead_upsertItem s
    (activityDoc cid uid now (pointRead s (conversationDocId cid) uid))
  rw [key.1, key.2] at hread
  exact hread

/-- The metadata document of the pair is stored with message count `n` and
creation instant `c`. -/
def metaState (s : Store) (cid uid : String) (n c : Nat) : Prop :=
  ∃ d, pointRead s (conversationDocId cid) uid = some d ∧
    d.messageCount = some n ∧ d.createdAt = some c

theorem activity_step_fresh (s : Store) (cid uid : String) (now : Nat)
    (hc : cid ≠ "") (hu : uid ≠ "")
    (h : pointRead s (conversationDocId cid) uid = none) :
    (updateConversationActivity true s cid uid now).1 = true ∧
    metaState (updateConversationActivity true s cid uid now).2 cid uid 1 now := by
  have h2 := pointRead_after_update s cid uid now hc hu
  rw [h] at h2
  exact ⟨by rw [updateConversationActivity_eq s cid uid now hc hu], ⟨_, h2, rfl, rfl⟩⟩

theorem activity_step_existing (s : Store) (cid uid : String) (now n c : Nat)
    (hc : cid ≠ "") (hu : uid ≠ "") (h : metaState s cid uid n c) :
    (updateConversationActivity true s cid uid now).1 = true ∧
    metaState (updateConversationActivity true s cid uid now).2 cid uid (n + 1) c := by
  obtain ⟨e, he, hn, hcr⟩ := h
  have h2 := pointRead_after_update s cid uid now hc hu
  rw [he] at h2
  refine ⟨by rw [updateConversationActivity_eq s cid uid now hc hu], ⟨_, h2, ?_, ?_⟩⟩
  · simp [activityDoc, hn]
  · simp [activityDoc, hcr]

theorem metaState_runSeq (cid uid : String) (hc : cid ≠ "") (hu : uid ≠ "") :
    ∀ (ts : List Nat) (s : Store) (n c : Nat), metaState s cid uid n c →
      ∀ i, i ≤ ts.length →
        metaState (runActivitySeq s cid uid (ts.take i)) cid uid (n + i) c := by
  intro ts
  induction ts with
  | nil =>
    intro s n c h i hi
    have hi0 : i = 0 := Nat.le_zero.mp hi
    subst hi0
    simpa [runActivitySeq] using h
  | cons t ts ih =>
    intro s n c h i hi
    cases i with
    | zero => simpa [runActivitySeq] using h
    | succ j =>
      rw [List.take_succ_cons]
      have step := activity_step_existing s cid uid t n c hc hu h
      have hj : j ≤ ts.length := by simpa using hi
      have hrec := ih (updateConversationActivity true s cid uid t).2 (n + 1) c step.2 j hj
      have harith : n + 1 + j = n + (j + 1) := by omega
      rw [harith] at hrec
      simpa [runActivitySeq] using hrec

/-! ## Sorting lemmas -/

theorem sorted_desc_head : ∀ (l : List Doc), List.Sorted tsGe l → ∀ x ∈ l,
    (∀ y ∈ l, y ≠ x → tsVal y < tsVal x) → ∃ t, l = x :: t := by
  intro l hs x hx hmax
  cases l with
  | nil => cases hx
  | cons a t =>
    by_cases hax : a = x
    · exact ⟨t, by rw [hax]⟩
    · exfalso
      have hxt : x ∈ t := by
        rcases List.mem_cons.mp hx with h | h
        · exact absurd h.symm hax
        · exact h
      have h1 : tsVal a < tsVal x := hmax a (List.mem_cons_self a t) hax
      have h2 : tsVal x ≤ tsVal a := List.rel_of_sorted_cons hs x hxt
      exact Nat.lt_irrefl _ (Nat.lt_of_le_of_lt h2 h1)

theorem sorted_asc_getLast : ∀ (l : List Doc), List.Sorted tsLe l → ∀ x ∈ l,
    (∀ y ∈ l, y ≠ x → tsVal y < tsVal x) → l.getLast? = some x := by
  intro l
  induction l with
  | nil => intro _ x hx; cases hx
  | cons a t ih =>
    intro hs x hx hmax
    cases t with
    | nil =>
      have hxa : x = a := by simpa using hx
      simp [hxa]
    | cons b t' =>
      rw [List.getLast?_cons_cons]
      have hxt : x ∈ b :: t' := by
        rcases List.mem_cons.mp hx with h | h
        · subst h
          by_contra hnot
          have hbx : b ≠ x := fun hbx => hnot (hbx ▸ List.mem_cons_self b t')
          have h1 : tsVal b < tsVal x := hmax b (by simp) hbx
          have h2 : tsVal x ≤ tsVal b :=
            List.rel_of_sorted_cons hs b (List.mem_cons_self b t')
          exact Nat.lt_irrefl _ (Nat.lt_of_le_of_lt h2 h1)
        · exact h
      exact ih hs.of_cons x hxt
        (fun y hy hne => hmax y (List.mem_cons_of_mem a hy) hne)

theorem sortDesc_head_of_maxUnique (l : List Doc) (x : Doc) (hx : x ∈ l)
    (hmax : ∀ y ∈ l, y ≠ x → tsVal y < tsVal x) :
    ∃ t, sortDescByTimestamp l = x :: t := by
  apply sorted_desc_head (sortDescByTimestamp l) (List.sorted_insertionSort tsGe l)
  · simpa [sortDescByTimestamp] using hx
  · intro y hy
    exact hmax y (by simpa [sortDescByTimestamp] using hy)

theorem sortAsc_getLast_of_maxUnique (l : List Doc) (x : Doc) (hx : x ∈ l)
    (hmax : ∀ y ∈ l, y ≠ x → tsVal y < tsVal x) :
    (sortAscByTimestamp l).getLast? = some x := by
  apply sorted_asc_getLast (sortAscByTimestamp l) (List.sorted_insertionSort tsLe l)
  · simpa [sortAscByTimestamp] using hx
  · intro y hy
    exact hmax y (by simpa [sortAscByTimestamp] using hy)

/-- The default `additionalData = {}` spread changes nothing. -/
theorem applyExtra_noExtra (b : Doc) : applyExtra b noExtra = b := rfl

/-- Reading back the metadata document right after a valid
`saveConversationInfo` (with `additionalData` not overriding the id or the
partition key) returns exactly the freshly built document. -/
theorem saveConversationInfo_read (s : Store) (cid uid : String) (un : Option String)
    (extra : ExtraData) (now : Nat) (hc : cid ≠ "") (hu : uid ≠ "")
    (hid : extra.id = none) (hpk : extra.userId = none) :
    pointRead (saveConversationInfo true s cid uid un extra now).2
        (conversationDocId cid) uid =
      some (applyExtra (conversationInfoDoc cid uid un now) extra) := by
  have heq : (saveConversationInfo true s cid uid un extra now).2 =
      upsertItem s (applyExtra (conversationInfoDoc cid uid un now) extra) := by
    simp [saveConversationInfo, hc, hu]
  rw [heq]
  have hread := pointRead_upsertItem s
    (applyExtra (conversationInfoDoc cid uid un now) extra)
  have h1 : (applyExtra (conversationInfoDoc cid uid un now) extra).id =
      conversationDocId cid := by
    simp [applyExtra, hid, conversationInfoDoc]
  have h2 : (applyExtra (conversationInfoDoc cid uid un now) extra).userId = uid := by
    simp [applyExtra, hpk, conversationInfoDoc]
  rw [h1, h2] at hread
  exact hread

/-- A `saveMessage` with valid inputs and a fresh generated id appends the
message document and returns it. -/
theorem saveMessage_fresh (s : Store) (m cid uid : String) (un : Option String)
    (mty msgId : String) (now : Nat)
    (hm : m ≠ "") (hc : cid ≠ "") (hu : uid ≠ "")
    (hfresh : s.any (keyMatch msgId uid) = false) :
    saveMessage true s m cid uid un mty msgId now =
      (some (messageDocOf m cid uid un mty msgId now),
        s ++ [messageDocOf m cid uid un mty msgId now]) := by
  have hcreate : createItem s (messageDocOf m cid uid un mty msgId now) =
      some (s ++ [messageDocOf m cid uid un mty msgId now]) := by
    unfold createItem
    rw [show (messageDocOf m cid uid un mty msgId now).id = msgId from rfl,
      show (messageDocOf m cid uid un mty msgId now).userId = uid from rfl,
      if_neg (by simp [hfresh])]
  simp [saveMessage, hm, hc, hu, hcreate]

/-- Appending a matching document whose timestamp strictly dominates every
stored matching document makes it the last element of the history. -/
theorem history_getLast_after_append (s : Store) (cid uid : String) (doc : Doc)
    (hmatch : historyMatch cid uid doc = true)
    (hmax : ∀ d ∈ s, historyMatch cid uid d = true → tsVal d < tsVal doc)
    (limit : Nat) (hlim : 1 ≤ limit) :
    (getConversationHistory true (s ++ [doc]) cid uid limit).getLast? =
      some (toHistoryEntry doc) := by
  have hfilter : (s ++ [doc]).filter (historyMatch cid uid) =
      s.filter (historyMatch cid uid) ++ [doc] := by
    rw [List.filter_append]
    simp [hmatch]
  have hmem : doc ∈ s.filter (historyMatch cid uid) ++ [doc] := by simp
  have hmaxL : ∀ y ∈ s.filter (historyMatch cid uid) ++ [doc], y ≠ doc →
      tsVal y < tsVal doc := by
    intro y hy hne
    rcases List.mem_append.mp hy with h | h
    · obtain ⟨hys, hym⟩ := List.mem_filter.mp h
      exact hmax y hys hym
    · simp only [List.mem_singleton] at h
      exact absurd h hne
  obtain ⟨t, ht⟩ := sortDesc_head_of_maxUnique _ doc hmem hmaxL
  obtain ⟨k, rfl⟩ : ∃ k, limit = k + 1 := ⟨limit - 1, by omega⟩
  have htake :
      (sortDescByTimestamp (s.filter (historyMatch cid uid) ++ [doc])).take (k + 1) =
        doc :: t.take k := by
    rw [ht, List.take_succ_cons]
  have hmem2 : doc ∈ doc :: t.take k := List.mem_cons_self doc _
  have hsub : ∀ y ∈ doc :: t.take k, y ∈ s.filter (historyMatch cid uid) ++ [doc] := by
    intro y hy
    rcases List.mem_cons.mp hy with h | h
    · subst h
      exact hmem
    · have hyt : y ∈ t := List.take_subset k t h
      have hsort : y ∈ sortDescByTimestamp (s.filter (historyMatch cid uid) ++ [doc]) := by
        rw [ht]
        exact List.mem_cons_of_mem doc hyt
      simpa [sortDescByTimestamp] using hsort
  have hmax2 : ∀ y ∈ doc :: t.take k, y ≠ doc → tsVal y < tsVal doc :=
    fun y hy hne => hmaxL y (hsub y hy) hne
  have hlast := sortAsc_getLast_of_maxUnique (doc :: t.take k) doc hmem2 hmax2
  have hrfl : getConversationHistory true (s ++ [doc]) cid uid (k + 1) =
      (sortAscByTimestamp
        ((sortDescByTimestamp ((s ++ [doc]).filter (historyMatch cid uid))).take
          (k + 1))).map toHistoryEntry := rfl
  rw [hrfl, hfilter, htake, List.getLast?_map, hlast]
  rfl

/-! ## Claim theorems -/

/-- C1 (amended): the writes to the fixed (deterministic) metadata
document id — `saveConversationInfo` and `updateConversationActivity` —
are idempotent replace-or-inserts: with the gate open and non-empty ids
they succeed on *every* store state, whether or not the target document
already exists.  `saveMessage`, by contrast, issues a create-only write
keyed by the freshly generated id: it succeeds exactly when no document
with that id exists in the partition, and fails with the already-exists
conflict otherwise. -/
theorem c1_amended (s : Store) (cid uid m : String) (un : Option String)
    (extra : ExtraData) (mty msgId : String) (now : Nat)
    (hc : cid ≠ "") (hu : uid ≠ "") (hm : m ≠ "") :
    (saveConversationInfo true s cid uid un extra now).1.isSome = true ∧
    (updateConversationActivity true s cid uid now).1 = true ∧
    ((saveMessage true s m cid uid un mty msgId now).1.isSome = true ↔
      s.any (keyMatch msgId uid) = false) := by
  refine ⟨?_, ?_, ?_⟩
  · simp [saveConversationInfo, hc, hu]
  · simp [updateConversationActivity, hc, hu]
  · by_cases hany : s.any (keyMatch msgId uid) = true
    · have hnone : saveMessage true s m cid uid un mty msgId now = (none, s) := by
        have hcreate : createItem s (messageDocOf m cid uid un mty msgId now) = none := by
          unfold createItem
          rw [show (messageDocOf m cid uid un mty msgId now).id = msgId from rfl,
            show (messageDocOf m cid uid un mty msgId now).userId = uid from rfl,
            if_pos hany]
        simp [saveMessage, hm, hc, hu, hcreate]
      simp [hnone, hany]
    · have hany' : s.any (keyMatch msgId uid) = false := by simpa using hany
      simp [saveMessage_fresh s m cid uid un mty msgId now hm hc hu hany', hany']

/-- Witness for C1 (amended) at a store that already holds the metadata
document: both metadata writes still succeed, and the message create
succeeds because its id is fresh. -/
theorem c1_amended_witness :
    ("c" : String) ≠ "" ∧
    (saveConversationInfo true [conversationInfoDoc "c" "u" none 1] "c" "u" none noExtra
        2).1.isSome = true ∧
    (updateConversationActivity true [conversationInfoDoc "c" "u" none 1] "c" "u"
        2).1 = true ∧
    ((saveMessage true [conversationInfoDoc "c" "u" none 1] "hola" "c" "u" none "user"
          "m1" 2).1.isSome = true ↔
      ([conversationInfoDoc "c" "u" none 1] : Store).any (keyMatch "m1" "u") = false) :=
  ⟨by decide,
    c1_amended [conversationInfoDoc "c" "u" none 1] "c" "u" "hola" none noExtra "user"
      "m1" 2 (by decide) (by decide) (by decide)⟩

/-- C2: with the gate open, non-empty ids and no prior metadata document,
sequential `updateConversationActivity` calls at instants `t0 :: ts` never
fail (every call returns `true`), and after the `i`-th call
(`1 ≤ i ≤ k`) the stored metadata document has `messageCount = i` and
`createdAt = t0` — the instant of the first call, identical across all
reads; in particular the first call produces `messageCount = 1`. -/
theorem c2_sequential_activity (s : Store) (cid uid : String) (t0 : Nat)
    (ts : List Nat) (hc : cid ≠ "") (hu : uid ≠ "")
    (hfresh : pointRead s (conversationDocId cid) uid = none) :
    (∀ (s' : Store) (t : Nat), (updateConversationActivity true s' cid uid t).1 = true) ∧
    ∀ i, 1 ≤ i → i ≤ (t0 :: ts).length →
      ∃ d, pointRead (runActivitySeq s cid uid ((t0 :: ts).take i))
          (conversationDocId cid) uid = some d ∧
        d.messageCount = some i ∧ d.createdAt = some t0 := by
  constructor
  · intro s' t
    simp [updateConversationActivity, hc, hu]
  · intro i hi1 hi2
    obtain ⟨j, rfl⟩ : ∃ j, i = j + 1 := ⟨i - 1, by omega⟩
    rw [List.take_succ_cons]
    have step := activity_step_fresh s cid uid t0 hc hu hfresh
    have hj : j ≤ ts.length := by simpa using hi2
    have hrec := metaState_runSeq cid uid hc hu ts
      (updateConversationActivity true s cid uid t0).2 1 t0 step.2 j hj
    have hrun : runActivitySeq s cid uid (t0 :: ts.take j) =
        runActivitySeq (updateConversationActivity true s cid uid t0).2 cid uid
          (ts.take j) := by
      simp [runActivitySeq]
    rw [hrun]
    have harith : 1 + j = j + 1 := by omega
    rw [harith] at hrec
    exact hrec

/-- Witness for C2: two sequential calls on an empty store yield
`messageCount = 2` with `createdAt` equal to the first call's instant. -/
theorem c2_sequential_activity_witness :
    pointRead ([] : Store) (conversationDocId "c") "u" = none ∧
    ∃ d, pointRead (runActivitySeq [] "c" "u" (((5 : Nat) :: [7]).take 2))
        (conversationDocId "c") "u" = some d ∧
      d.messageCount = some 2 ∧ d.createdAt = some 5 :=
  ⟨by decide,
    (c2_sequential_activity [] "c" "u" 5 [7] (by decide) (by decide) (by decide)).2 2
      (by decide) (by decide)⟩

/-- C3 (amended): `updateConversationActivity` preserves the `createdAt`
of an existing metadata document (it reads, then merges); but
`saveConversationInfo` (with default `additionalData`) rebuilds the
document without reading and stores `createdAt = now`, the current
instant — so `createdAt` is preserved by `updateConversationActivity`
only, not by every later write. -/
theorem c3_amended (s : Store) (cid uid : String) (un : Option String) (now c : Nat)
    (hc : cid ≠ "") (hu : uid ≠ "")
    (hprev : ∃ d, pointRead s (conversationDocId cid) uid = some d ∧
      d.createdAt = some c) :
    (∃ d, pointRead (updateConversationActivity true s cid uid now).2
        (conversationDocId cid) uid = some d ∧ d.createdAt = some c) ∧
    (∃ d, pointRead (saveConversationInfo true s cid uid un noExtra now).2
        (conversationDocId cid) uid = some d ∧ d.createdAt = some now) := by
  obtain ⟨e, he, hcr⟩ := hprev
  constructor
  · have h2 := pointRead_after_update s cid uid now hc hu
    rw [he] at h2
    exact ⟨_, h2, by simp [activityDoc, hcr]⟩
  · have hread := saveConversationInfo_read s cid uid un noExtra now hc hu rfl rfl
    rw [applyExtra_noExtra] at hread
    exact ⟨_, hread, rfl⟩

/-- Witness for C3 (amended): a document created at instant 100 keeps
`createdAt = 100` through `updateConversationActivity` at 200, while
`saveConversationInfo` at 200 stores `createdAt = 200`. -/
theorem c3_amended_witness :
    (∃ d, pointRead ((updateConversationActivity true [] "c" "u" 100).2)
        (conversationDocId "c") "u" = some d ∧ d.createdAt = some 100) ∧
    ((∃ d, pointRead (updateConversationActivity true
          (updateConversationActivity true [] "c" "u" 100).2 "c" "u" 200).2
        (conversationDocId "c") "u" = some d ∧ d.createdAt = some 100) ∧
     (∃ d, pointRead (saveConversationInfo true
          (updateConversationActivity true [] "c" "u" 100).2 "c" "u" none noExtra
          200).2 (conversationDocId "c") "u" = some d ∧ d.createdAt = some 200)) :=
  ⟨⟨_, rfl, rfl⟩,
    c3_amended (updateConversationActivity true [] "c" "u" 100).2 "c" "u" none 200 100
      (by decide) (by decide) ⟨_, rfl, rfl⟩⟩

/-- C4 (amended): outside explicit deletion *and* `saveConversationInfo`
(which rebuilds the metadata document with `messageCount: 0`), the stored
`messageCount` never decreases: `updateConversationActivity`, the only
other operation writing the metadata document, takes an existing count `n`
to exactly `n + 1 ≥ n`. -/
theorem c4_amended (s : Store) (cid uid : String) (now n c : Nat)
    (hc : cid ≠ "") (hu : uid ≠ "") (h : metaState s cid uid n c) :
    ∃ d, pointRead (updateConversationActivity true s cid uid now).2
        (conversationDocId cid) uid = some d ∧
      d.messageCount = some (n + 1) ∧ n ≤ n + 1 := by
  obtain ⟨-, hm⟩ := activity_step_existing s cid uid now n c hc hu h
  obtain ⟨d, hd, hcount, -⟩ := hm
  exact ⟨d, hd, hcount, Nat.le_succ n⟩

/-- Witness for C4 (amended): a second activity update takes the count
from 1 to 2. -/
theorem c4_amended_witness :
    metaState (updateConversationActivity true [] "c" "u" 100).2 "c" "u" 1 100 ∧
    ∃ d, pointRead (updateConversationActivity true
        (updateConversationActivity true [] "c" "u" 100).2 "c" "u" 150).2
      (conversationDocId "c") "u" = some d ∧
      d.messageCount = some (1 + 1) ∧ 1 ≤ 1 + 1 :=
  ⟨⟨_, rfl, rfl, rfl⟩,
    c4_amended (updateConversationActivity true [] "c" "u" 100).2 "c" "u" 150 1 100
      (by decide) (by decide) ⟨_, rfl, rfl, rfl⟩⟩

/-- C5: with valid inputs (non-empty message and ids), the gate open, a
fresh generated id, a write instant later than every stored matching
message, and `limit ≥ 1`: `saveMessage` succeeds, silently storing the
text truncated to at most 4000 units, and `getConversationHistory` on the
resulting store ends with exactly that truncated text. -/
theorem c5_save_then_history (s : Store) (m cid uid : String) (un : Option String)
    (mty msgId : String) (now limit : Nat)
    (hm : m ≠ "") (hc : cid ≠ "") (hu : uid ≠ "")
    (hfresh : s.any (keyMatch msgId uid) = false)
    (hts : ∀ d ∈ s, historyMatch cid uid d = true → tsVal d < now)
    (hlim : 1 ≤ limit) :
    (saveMessage true s m cid uid un mty msgId now).1 =
      some (messageDocOf m cid uid un mty msgId now) ∧
    (messageDocOf m cid uid un mty msgId now).message = some (substringTo m 4000) ∧
    (getConversationHistory true (saveMessage true s m cid uid un mty msgId now).2
        cid uid limit).getLast? =
      some (toHistoryEntry (messageDocOf m cid uid un mty msgId now)) ∧
    (toHistoryEntry (messageDocOf m cid uid un mty msgId now)).message =
      some (substringTo m 4000) := by
  have hsave := saveMessage_fresh s m cid uid un mty msgId now hm hc hu hfresh
  have hmatch : historyMatch cid uid (messageDocOf m cid uid un mty msgId now) = true := by
    simp [historyMatch, messageDocOf]
  have hmax : ∀ d ∈ s, historyMatch cid uid d = true →
      tsVal d < tsVal (messageDocOf m cid uid un mty msgId now) := by
    intro d hd hmd
    exact hts d hd hmd
  refine ⟨?_, rfl, ?_, rfl⟩
  · rw [hsave]
  · rw [hsave]
    exact history_getLast_after_append s cid uid _ hmatch hmax limit hlim

/-- Witness for C5: one message saved into an empty store is the last (and
only) history element. -/
theorem c5_save_then_history_witness :
    ("hola" : String) ≠ "" ∧
    (getConversationHistory true
        (saveMessage true [] "hola" "c" "u" none "user" "m1" 10).2 "c" "u" 1).getLast? =
      some (toHistoryEntry (messageDocOf "hola" "c" "u" none "user" "m1" 10)) :=
  ⟨by decide,
    (c5_save_then_history [] "hola" "c" "u" none "user" "m1" 10 1 (by decide) (by decide)
      (by decide) (by decide) (by simp) (by decide)).2.2.1⟩

/-- C8: when the availability gate is closed (`cosmosAvailable = false`),
every operation returns its degraded value without raising and without
touching the store — `saveMessage`, `saveConversationInfo` and
`getConversationInfo` return `null`, `getConversationHistory` the empty
list, `updateConversationActivity` and `deleteConversation` `false`,
`cleanOldMessages` `0`, and `getStats` the `available = false` object;
in each case the store is left exactly as it was. -/
theorem c8_gate_closed (s : Store) (m cid uid : String) (un : Option String)
    (mty msgId : String) (now limit keepLast : Nat) (extra : ExtraData)
    (f : StatFailures) :
    saveMessage false s m cid uid un mty msgId now = (none, s) ∧
    saveConversationInfo false s cid uid un extra now = (none, s) ∧
    getConversationInfo false s cid uid = none ∧
    getConversationHistory false s cid uid limit = [] ∧
    updateConversationActivity false s cid uid now = (false, s) ∧
    deleteConversation false s cid uid = (false, s) ∧
    cleanOldMessages false s cid uid keepLast = (0, s) ∧
    getStats false s f = StatsResult.unavailable :=
  ⟨rfl, rfl, rfl, rfl, rfl, rfl, rfl, rfl⟩

/-- C9: in `getStats`, a failing count query marks only its own field with
the error marker while every other field is still computed from its own
query, and `totalMessages` is the client-side sum of the user, bot and
system counts with any failed field treated as `0` — the sum is always a
number (`Nat`). -/
theorem c9_stats_partial (s : Store) (f : StatFailures) :
    ∃ st, getStats true s f = StatsResult.ok st ∧
      st.totalDocuments =
        (if f.totalDocuments then StatVal.err else StatVal.num s.length) ∧
      st.conversations =
        (if f.conversations then StatVal.err else StatVal.num (countConversations s)) ∧
      st.userMessages =
        (if f.userMessages then StatVal.err else StatVal.num (countByType s "user")) ∧
      st.botMessages =
        (if f.botMessages then StatVal.err else StatVal.num (countByType s "bot")) ∧
      st.systemMessages =
        (if f.systemMessages then StatVal.err else StatVal.num (countByType s "system")) ∧
      st.recentActivity = (if f.recentActivity then none else recentActivityOf s) ∧
      st.totalMessages =
        st.userMessages.toNum + st.botMessages.toNum + st.systemMessages.toNum :=
  ⟨_, rfl, rfl, rfl, rfl, rfl, rfl, rfl, rfl⟩

/-- C1 counterexample: `saveMessage` issues a create-only write
(`container.items.create`, line 129).  In a store that already holds a
document at the generated id `(m1, u)`, the create conflicts and the save
fails (returns `null`, store unchanged) although the inputs are valid and
the gate is open — so not every write of the service is an idempotent
replace-or-insert. -/
theorem c1_counterexample :
    (messageDocOf "previo" "c" "u" none "user" "m1" 5).id = "m1" ∧
    createItem [messageDocOf "previo" "c" "u" none "user" "m1" 5]
        (messageDocOf "hola" "c" "u" none "user" "m1" 10) = none ∧
    saveMessage true [messageDocOf "previo" "c" "u" none "user" "m1" 5]
        "hola" "c" "u" none "user" "m1" 10 =
      (none, [messageDocOf "previo" "c" "u" none "user" "m1" 5]) := by
  decide

/-- C3 counterexample: a metadata document created by
`updateConversationActivity` at instant 100 has `createdAt = 100`; the
later `saveConversationInfo` write at instant 200 (default
`additionalData`) replaces the document with a freshly built one whose
`createdAt` is the *current* timestamp 200 — `createdAt` is not preserved
by every later write. -/
theorem c3_counterexample :
    ((pointRead (updateConversationActivity true [] "c" "u" 100).2
        (conversationDocId "c") "u").map Doc.createdAt = some (some 100)) ∧
    ((pointRead
        (saveConversationInfo true (updateConversationActivity true [] "c" "u" 100).2
          "c" "u" (some "Nora") noExtra 200).2
        (conversationDocId "c") "u").map Doc.createdAt = some (some 200)) ∧
    (some (some 200) : Option (Option Nat)) ≠ some (some 100) := by
  decide

/-- C4 counterexample: after two `updateConversationActivity` calls the
metadata document has `messageCount = 2`; a `saveConversationInfo` call
(default `additionalData`) then stores `messageCount = 0` — the counter is
reset by an operation other than explicit deletion. -/
theorem c4_counterexample :
    ((pointRead (runActivitySeq [] "c" "u" [100, 150]) (conversationDocId "c") "u").map
        Doc.messageCount = some (some 2)) ∧
    ((pointRead
        (saveConversationInfo true (runActivitySeq [] "c" "u" [100, 150])
          "c" "u" (some "Nora") noExtra 200).2
        (conversationDocId "c") "u").map Doc.messageCount = some (some 0)) ∧
    (0 : Nat) < 2 := by
  decide

/-- C7 (code bug): the two stored documents are genuine message documents
(they match the history query's filter), yet neither matches the retention
query's filter `c.documentType != 'conversation_info'` because message
documents carry no `documentType` property and a Cosmos DB comparison with
an undefined property is rejected by the `WHERE` clause.  Hence with
`M = 2` messages and `keepLast = 0` the code deletes nothing and returns
`0` instead of deleting `M - N = 2`. -/
theorem c7_clean_deletes_nothing :
    historyMatch "c" "u" (messageDocOf "hola" "c" "u" none "user" "m1" 1) = true ∧
    historyMatch "c" "u" (messageDocOf "adios" "c" "u" none "user" "m2" 2) = true ∧
    cleanMatch "c" "u" (messageDocOf "hola" "c" "u" none "user" "m1" 1) = false ∧
    cleanMatch "c" "u" (messageDocOf "adios" "c" "u" none "user" "m2" 2) = false ∧
    cleanOldMessages true
        [messageDocOf "hola" "c" "u" none "user" "m1" 1,
         messageDocOf "adios" "c" "u" none "user" "m2" 2] "c" "u" 0 =
      (0,
        [messageDocOf "hola" "c" "u" none "user" "m1" 1,
         messageDocOf "adios" "c" "u" none "user" "m2" 2]) := by
  decide

/-- C6: the sequence returned by `getConversationHistory` is chronologically
ascending — the timestamps are non-decreasing from the first element to the
last (the store query orders descending, the client re-sorts ascending). -/
theorem c6_history_sorted (avail : Bool) (s : Store) (cid uid : String) (limit : Nat) :
    (getConversationHistory avail s cid uid limit).Pairwise
      (fun a b => a.timestamp.getD 0 ≤ b.timestamp.getD 0) := by
  cases avail with
  | false => simp [getConversationHistory]
  | true =>
    have hrfl : getConversationHistory true s cid uid limit =
        (sortAscByTimestamp
          ((sortDescByTimestamp (s.filter (historyMatch cid uid))).take limit)).map
          toHistoryEntry := rfl
    rw [hrfl]
    refine List.Pairwise.map toHistoryEntry ?_ (List.sorted_insertionSort tsLe _)
    intro a b hab
    simpa [toHistoryEntry, tsLe, tsVal] using hab

/-- C10: every element returned by `getConversationHistory` is the
projection of a stored document onto exactly the fields
`id, message, conversationId, userId, userName, timestamp, type`
(the `HistoryEntry` structure), with `id` equal to the stored `messageId`
and `type` equal to the stored `messageType`; the stored field name
`messageType` itself is not among the exposed fields. -/
theorem c10_history_projection (avail : Bool) (s : Store) (cid uid : String)
    (limit : Nat) (e : HistoryEntry)
    (he : e ∈ getConversationHistory avail s cid uid limit) :
    ∃ d ∈ s, e = toHistoryEntry d ∧ e.id = d.messageId ∧ e.type = d.messageType := by
  cases avail with
  | false => simp [getConversationHistory] at he
  | true =>
    have hrfl : getConversationHistory true s cid uid limit =
        (sortAscByTimestamp
          ((sortDescByTimestamp (s.filter (historyMatch cid uid))).take limit)).map
          toHistoryEntry := rfl
    rw [hrfl] at he
    obtain ⟨d, hd, rfl⟩ := List.mem_map.mp he
    have hd1 : d ∈ (sortDescByTimestamp (s.filter (historyMatch cid uid))).take limit := by
      simpa [sortAscByTimestamp] using hd
    have hd2 : d ∈ sortDescByTimestamp (s.filter (historyMatch cid uid)) :=
      List.take_subset limit _ hd1
    have hd3 : d ∈ s.filter (historyMatch cid uid) := by
      simpa [sortDescByTimestamp] using hd2
    exact ⟨d, (List.mem_filter.mp hd3).1, rfl, rfl, rfl⟩

/-- Witness for C10 at a concrete store: one saved message comes back as
its own projection. -/
theorem c10_history_projection_witness :
    toHistoryEntry (messageDocOf "hola" "c" "u" none "user" "m1" 1) ∈
      getConversationHistory true [messageDocOf "hola" "c" "u" none "user" "m1" 1]
        "c" "u" 1 ∧
    ∃ d ∈ [messageDocOf "hola" "c" "u" none "user" "m1" 1],
      toHistoryEntry (messageDocOf "hola" "c" "u" none "user" "m1" 1) =
        toHistoryEntry d ∧
      (toHistoryEntry (messageDocOf "hola" "c" "u" none "user" "m1" 1)).id =
        d.messageId ∧
      (toHistoryEntry (messageDocOf "hola" "c" "u" none "user" "m1" 1)).type =
        d.messageType :=
  ⟨by decide, c10_history_projection true _ "c" "u" 1 _ (by decide)⟩

end CosmosService
